import Mathlib

/-!
# Gmail Automata rule engine: a shallow embedding

This file embeds the core of the gmail-automata rule engine in Lean 4 and
proves properties of the embedded code.

The embedded pieces are:
* the `ThreadAction` accumulator (`src/ThreadAction.ts`, with the
  parameterised `addLabels`/`mergeFrom` of the later revision kept in
  `src/JestSheets.ts`);
* the `Condition` S-expression parser and matcher (`src/unnamed/part_001`,
  the revision with `NOT`, `HEADER` and `THREAD` support and the
  `RE_FLAG_PATTERN` regex-literal syntax);
* the staged evaluation loop of `Processor.processThread`
  (`src/ThreadAction.ts` lines 105-160, the revision that branches on the
  matched rule's own directive), and the older variant from
  `src/Processor.ts` lines 3-48 which ends by calling
  `ThreadData.validateActions` (`src/index.ts` lines 269-277);
* the unmatched-thread validation (`src/index.ts`).

JavaScript strings are modelled as `List Char` (faithful for the ASCII data
the engine handles); the JS string helpers used by the source
(`trim`, `indexOf`, `lastIndexOf`, `substring`, `startsWith`, `endsWith`)
are modelled explicitly with their JS clamping semantics.  The regular
expressions built by `Condition.parseRegExp` are modelled by executable
matchers implementing the semantics of exactly the regexes the source
constructs (anchor groups, the optional `+label` group, literal bodies),
including the `lastIndex` statefulness of `RegExp.prototype.test` for the
`g`/`y` flags.
-/

deriving instance DecidableEq for Except

/-- JavaScript string, as a list of characters. -/
abbrev JSString := List Char

/-- Conversion from a Lean string literal to the `JSString` model. -/
def js (s : String) : JSString := s.data

/-- Whitespace recognised by `String.prototype.trim` (ASCII relevant part). -/
def isJsSpace (c : Char) : Bool :=
  c = ' ' || c = '\t' || c = '\n' || c = '\r'

/-- JS `s.trim()`. -/
def jsTrim (s : JSString) : JSString :=
  ((s.dropWhile isJsSpace).reverse.dropWhile isJsSpace).reverse

/-- JS `s.startsWith(c)` for a one-character argument. -/
def jsStartsWith (s : JSString) (c : Char) : Bool :=
  match s with
  | [] => false
  | a :: _ => a = c

/-- JS `s.endsWith(c)` for a one-character argument. -/
def jsEndsWith (s : JSString) (c : Char) : Bool :=
  match s.getLast? with
  | some a => a = c
  | none => false

/-- Position of the first occurrence of `c`, counting from `i`. -/
def jsIndexOfAux (c : Char) : JSString → Nat → Option Nat
  | [], _ => none
  | a :: as, i => if a = c then some i else jsIndexOfAux c as (i + 1)

/-- JS `s.indexOf(c)`: first index of `c`, or `-1`. -/
def jsIndexOf (s : JSString) (c : Char) : Int :=
  match jsIndexOfAux c s 0 with
  | some i => (i : Int)
  | none => -1

/-- JS `s.lastIndexOf(c)`: last index of `c`, or `-1`. -/
def jsLastIndexOf (s : JSString) (c : Char) : Int :=
  match jsIndexOfAux c s.reverse 0 with
  | some i => (s.length : Int) - 1 - (i : Int)
  | none => -1

/-- Clamp an integer index into `[0, n]`, as JS `substring` does. -/
def clampIdx (n : Nat) (x : Int) : Nat := min x.toNat n

/-- JS `s.substring(a, b)`: clamps both indices into range and swaps them
when given in descending order. -/
def jsSubstring (s : JSString) (a b : Int) : JSString :=
  let x := clampIdx s.length a
  let y := clampIdx s.length b
  (s.take (max x y)).drop (min x y)

/-- Lower-case an ASCII code point, as the `i` regex flag does. -/
def lowerNat (n : Nat) : Nat := if 65 ≤ n ∧ n ≤ 90 then n + 32 else n

/-- Upper-case an ASCII code point, as `String.prototype.toUpperCase` does. -/
def upperNat (n : Nat) : Nat := if 97 ≤ n ∧ n ≤ 122 then n - 32 else n

/-- `eqUpperKey s k` holds when `s.toUpperCase()` equals the (already
upper-case) keyword `k`; used for the enum lookups
`ConditionType[type_str]` and `ThreadSubType[subtype.toUpperCase()]`. -/
def eqUpperKey : JSString → JSString → Bool
  | [], [] => true
  | a :: as, b :: bs => upperNat a.toNat = b.toNat && eqUpperKey as bs
  | _, _ => false

/-- Case-insensitive (when `ci` is set) character comparison, the way the
`i` regex flag compares characters. -/
def charEqCI (ci : Bool) (a b : Char) : Bool :=
  if ci then lowerNat a.toNat = lowerNat b.toNat else a = b

section ThreadActionModel

/-- `BooleanActionType` from `src/ThreadAction.ts`. -/
inductive BooleanActionType where
  | DEFAULT
  | ENABLE
  | DISABLE
deriving DecidableEq

/-- `InboxActionType` from `src/ThreadAction.ts`; the `NOTHING` sentinel is
used by `src/index.ts` and `src/ThreadAction.test.ts`. -/
inductive InboxActionType where
  | DEFAULT
  | INBOX
  | ARCHIVE
  | TRASH
  | NOTHING
deriving DecidableEq

/-- `ActionAfterMatchType` from `src/ThreadAction.ts`. -/
inductive ActionAfterMatchType where
  | DEFAULT
  | DONE
  | FINISH_STAGE
  | NEXT_STAGE
deriving DecidableEq

/-- `ThreadAction` from `src/ThreadAction.ts`.  The JS `Set<string>` of
label names is modelled as an insertion-ordered duplicate-free list. -/
structure ThreadAction where
  label_names : List JSString := []
  move_to : InboxActionType := .DEFAULT
  important : BooleanActionType := .DEFAULT
  read : BooleanActionType := .DEFAULT
  auto_label : BooleanActionType := .DEFAULT
  action_after_match : ActionAfterMatchType := .DEFAULT
deriving DecidableEq

/-- JS `Set.prototype.add`: appends `x` when not already present. -/
def setAdd (s : List JSString) (x : JSString) : List JSString :=
  if x ∈ s then s else s ++ [x]

/-- One step of the parent-label walk: `remaining.substring(0,
remaining.lastIndexOf('/'))` from `ThreadAction.addLabels`. -/
def cutParentLabel (l : JSString) : JSString :=
  jsSubstring l 0 (jsLastIndexOf l '/')

/-- The `while (remaining)` loop of `ThreadAction.addLabels`
(`src/JestSheets.ts` lines 201-207 and `src/ThreadAction.ts` lines 43-48):
inserts `remaining` and every parent obtained by cutting at the last `/`.
The fuel argument only bounds the number of iterations; since each cut
strictly shortens the label, `addLabelChain` below always supplies enough
fuel, and the zero-fuel case is unreachable. -/
def addLabelChainF : Nat → List JSString → JSString → List JSString
  | 0, s, _ => s
  | fuel + 1, s, remaining =>
    if remaining = [] then s
    else addLabelChainF fuel (setAdd s remaining) (cutParentLabel remaining)

/-- The `while (remaining)` loop of `ThreadAction.addLabels`, with the fuel
instantiated so that it never runs out. -/
def addLabelChain (s : List JSString) (remaining : JSString) : List JSString :=
  addLabelChainF (remaining.length + 1) s remaining

/-- `ThreadAction.addLabels(new_label_names, add_parent_labels)` from
`src/JestSheets.ts` lines 199-212.  The single-argument variant in
`src/ThreadAction.ts` lines 41-50 behaves as the `add_parent_labels = true`
instance. -/
def ThreadAction.addLabels (ta : ThreadAction) (new_label_names : List JSString)
    (add_parent_labels : Bool) : ThreadAction :=
  { ta with
    label_names := new_label_names.foldl
      (fun s label => if add_parent_labels then addLabelChain s label else setAdd s label)
      ta.label_names }

/-- `ThreadAction.hasAnyAction` from `src/ThreadAction.ts` lines 34-39. -/
def ThreadAction.hasAnyAction (ta : ThreadAction) : Bool :=
  ta.label_names.length > 0
    || ta.move_to ≠ InboxActionType.DEFAULT
    || ta.important ≠ BooleanActionType.DEFAULT
    || ta.read ≠ BooleanActionType.DEFAULT

/-- `ThreadAction.mergeFrom(other, add_parent_labels)` from
`src/JestSheets.ts` lines 214-225; the single-argument variant in
`src/ThreadAction.ts` lines 52-63 behaves as the `add_parent_labels = true`
instance.  Labels are unioned, `move_to` and each of
`important`/`read`/`auto_label` are overwritten only when the incoming
value is not `DEFAULT`; `action_after_match` is not touched. -/
def ThreadAction.mergeFrom (ta : ThreadAction) (other : ThreadAction)
    (add_parent_labels : Bool) : ThreadAction :=
  let ta1 := ta.addLabels other.label_names add_parent_labels
  let ta2 := if other.move_to ≠ InboxActionType.DEFAULT
    then { ta1 with move_to := other.move_to } else ta1
  let ta3 := if other.important ≠ BooleanActionType.DEFAULT
    then { ta2 with important := other.important } else ta2
  let ta4 := if other.read ≠ BooleanActionType.DEFAULT
    then { ta3 with read := other.read } else ta3
  if other.auto_label ≠ BooleanActionType.DEFAULT
    then { ta4 with auto_label := other.auto_label } else ta4

end ThreadActionModel

section MatcherModel

/-- The three-way classification performed by `Condition.parseRegExp`
(`src/unnamed/part_001` lines 321-338): a `/body/flags` regex literal, a
quoted exact pattern, a default address pattern, or a default containment
pattern.  For the non-regex cases the source escapes every regex
metacharacter of the pattern, so the stored pattern text is matched
literally; the semantic matchers below implement exactly the regexes the
source builds around that literal text. -/
inductive Matcher where
  | regex (body : JSString) (flags : JSString)
  | exact (lit : JSString)
  | address (lit : JSString)
  | contains (lit : JSString)
deriving DecidableEq

/-- A compiled `RegExp` object: the matcher plus its mutable `lastIndex`
property (relevant to `test` only under the `g`/`y` flags). -/
structure RMatcher where
  m : Matcher
  lastIndex : Nat := 0
deriving DecidableEq

/-- Flag characters accepted by `RE_FLAG_PATTERN = /^\/(.*)\/([gimuys]*)$/`. -/
def isFlagChar (c : Char) : Bool :=
  c = 'g' || c = 'i' || c = 'm' || c = 'u' || c = 'y' || c = 's'

/-- Match of `RE_FLAG_PATTERN` against a pattern string: with the greedy
`(.*)`, the body extends to the last `/` whose suffix consists only of flag
characters, which (since `/` is not a flag character) is the last `/` of
the string. -/
def reFlagSplit (p : JSString) : Option (JSString × JSString) :=
  if jsStartsWith p '/' then
    let j := jsLastIndexOf p '/'
    if 1 ≤ j ∧ (p.drop (j.toNat + 1)).all isFlagChar then
      some (jsSubstring p 1 j, p.drop (j.toNat + 1))
    else none
  else none

/-- `Condition.parseRegExp(pattern, condition_str, matching_address)` from
`src/unnamed/part_001` lines 321-338.  Fails (the `Utils.assert`) exactly
when the pattern string is empty. -/
def parseRegExp (pattern : JSString) (_condition_str : JSString)
    (matching_address : Bool) : Except JSString Matcher :=
  if pattern.length = 0 then
    .error (js "Condition should have value but not found")
  else
    match reFlagSplit pattern with
    | some (p, flags) => .ok (.regex p flags)
    | none =>
      if jsStartsWith pattern '"' && jsEndsWith pattern '"' then
        .ok (.exact (jsSubstring pattern 1 ((pattern.length : Int) - 1)))
      else if matching_address then
        .ok (.address pattern)
      else
        .ok (.contains pattern)

/-- Consume the literal `p` from the front of `t`, character by character
(case-insensitively when `ci`), returning the remainder. -/
def consumeLit (ci : Bool) : JSString → JSString → Option JSString
  | [], t => some t
  | _ :: _, [] => none
  | p :: ps, c :: cs => if charEqCI ci p c then consumeLit ci ps cs else none

/-- The `($|>)` end group: the remainder is empty or starts with `>`. -/
def endBoundaryOk : JSString → Bool
  | [] => true
  | c :: _ => c = '>'

/-- Match `@` followed by the literal `post` and the end group. -/
def matchAtPost (ci : Bool) (post s : JSString) : Bool :=
  match consumeLit ci ('@' :: post) s with
  | some r => endBoundaryOk r
  | none => false

/-- Backtracking for the `[^@]+` part of the `(\+[^@]+)?@` group: consume
one or more non-`@` characters, then `@`, `post` and the end group. -/
def labelRun (ci : Bool) (post : JSString) : JSString → Bool
  | [] => false
  | c :: cs => decide (c ≠ '@') && (matchAtPost ci post cs || labelRun ci post cs)

/-- The `(\+[^@]+)?@post($|>)` tail of an address regex: either the label
group is skipped, or it consumes a `+` and a non-empty run of non-`@`
characters. -/
def tailWithAt (ci : Bool) (post s : JSString) : Bool :=
  matchAtPost ci post s ||
    (match s with
     | '+' :: cs => labelRun ci post cs
     | _ => false)

/-- Body of a wrapped pattern at a fixed start position: consume `pre`,
then (when the pattern contained an `@`) the optional-label tail, else the
end group directly. -/
def coreWrapped (ci : Bool) (pre post : JSString) (hasAt : Bool) (s : JSString) : Bool :=
  match consumeLit ci pre s with
  | some r => if hasAt then tailWithAt ci post r else endBoundaryOk r
  | none => false

/-- The `(^|<)` start group: position 0, or just after a `<`. -/
def startBoundaryOk : Option Char → Bool
  | none => true
  | some c => c = '<'

/-- `RegExp.prototype.test` for an unanchored pattern: try the core at
every start position whose preceding character satisfies the start group. -/
def scanStarts (core : JSString → Bool) : Option Char → JSString → Bool
  | prev, s =>
    (startBoundaryOk prev && core s) ||
      (match s with
       | [] => false
       | c :: cs => scanStarts core (some c) cs)

/-- Split a string at its first `@` (the JS `replace('@', ...)` with a
string argument replaces the first occurrence only). -/
def splitAtFirst (c : Char) : JSString → Option (JSString × JSString)
  | [] => none
  | a :: as =>
    if a = c then some ([], as)
    else (splitAtFirst c as).map (fun pq => (a :: pq.1, pq.2))

/-- Test of a `(^|<)lit($|>)` regex (flag `i`), with the first `@` of `lit`
expanded to `(\+[^@]+)?@` when `addr` is set — the regexes built by the
exact-match and address branches of `Condition.parseRegExp`. -/
def testWrapped (ci : Bool) (lit : JSString) (addr : Bool) (t : JSString) : Bool :=
  match (if addr then splitAtFirst '@' lit else none) with
  | some pq => scanStarts (coreWrapped ci pq.1 pq.2 true) none t
  | none => scanStarts (coreWrapped ci lit [] false) none t

/-- Test of the containment regex (escaped literal, no flags): a
case-sensitive substring search. -/
def testContains (lit : JSString) : JSString → Bool
  | [] => (consumeLit false lit []).isSome
  | c :: cs => (consumeLit false lit (c :: cs)).isSome || testContains lit cs

/-- First occurrence of the literal `body` in `t` at character index ≥ the
index carried in the accumulator; returns start and end indices. -/
def searchFrom (ci : Bool) (body : JSString) : JSString → Nat → Option (Nat × Nat)
  | t, i =>
    match consumeLit ci body t with
    | some _ => some (i, i + body.length)
    | none =>
      match t with
      | [] => none
      | _ :: cs => searchFrom ci body cs (i + 1)

/-- `RegExp.prototype.test` semantics for a regex literal with a literal
body: without `g`/`y` the search always starts at 0 and `lastIndex` is
untouched; with `g` (global) the search starts at `lastIndex` and
`lastIndex` is advanced to the match end (or reset to 0 on failure); with
`y` (sticky) the match must start exactly at `lastIndex`. -/
def regexTest (body flags : JSString) (li : Nat) (t : JSString) : Bool × Nat :=
  let ci := flags.contains 'i'
  let global := flags.contains 'g'
  let sticky := flags.contains 'y'
  if global || sticky then
    if li > t.length then (false, 0)
    else
      let r : Option (Nat × Nat) :=
        if sticky then
          match consumeLit ci body (t.drop li) with
          | some _ => some (li, li + body.length)
          | none => none
        else searchFrom ci body (t.drop li) li
      match r with
      | some ie => (true, ie.2)
      | none => (false, 0)
  else ((searchFrom ci body t 0).isSome, li)

/-- `this.regexp.test(target)` on a compiled matcher, returning the result
and the updated `RegExp` object. -/
def Matcher.test : Matcher → Nat → JSString → Bool × Nat
  | .regex body flags, li, t => regexTest body flags li t
  | .exact lit, li, t => (testWrapped true lit false t, li)
  | .address lit, li, t => (testWrapped true lit true t, li)
  | .contains lit, li, t => (testContains lit t, li)

/-- `test` on an `RMatcher`, threading the `lastIndex` state. -/
def RMatcher.test (r : RMatcher) (t : JSString) : Bool × RMatcher :=
  let bi := r.m.test r.lastIndex t
  (bi.1, ⟨r.m, bi.2⟩)

/-- `addresses.some(address => this.regexp.test(address))` from
`Condition.matchAddress`, threading the `RegExp` state and short-circuiting
on the first success as `Array.prototype.some` does. -/
def RMatcher.testSome : RMatcher → List JSString → Bool × RMatcher
  | r, [] => (false, r)
  | r, a :: rest =>
    let br := r.test a
    if br.1 then (true, br.2) else br.2.testSome rest

end MatcherModel

section ConditionModel

/-- `ThreadSubType` from `src/unnamed/part_001` lines 269-272. -/
inductive ThreadSubType where
  | FIRST_MESSAGE_SUBJECT
  | LABEL
  | IS_STARRED
  | IS_IMPORTANT
  | IS_IN_INBOX
  | IS_IN_PRIORITY_INBOX
  | IS_IN_SPAM
  | IS_IN_TRASH
  | IS_UNREAD
deriving DecidableEq

/-- `ConditionType` from `src/unnamed/part_001` lines 265-267. -/
inductive ConditionType where
  | AND
  | OR
  | NOT
  | SUBJECT
  | FROM
  | TO
  | CC
  | BCC
  | LIST
  | SENDER
  | RECEIVER
  | BODY
  | HEADER
  | THREAD
deriving DecidableEq

/-- The enum lookup `ConditionType[type_str]` with `type_str` already
upper-cased by the constructor.  The TS numeric enum also carries a
reverse mapping, so the digit keys `"0"`..`"13"` yield the enum *name
strings* at runtime; those string values match no case of the numeric
`switch (this.type)` and hit its `default: throw`, exactly as the
unrecognised keywords do, so mapping them to `none` here is
observationally faithful (both paths are a parse error). -/
def lookupConditionType (t : JSString) : Option ConditionType :=
  if eqUpperKey t (js "AND") then some .AND
  else if eqUpperKey t (js "OR") then some .OR
  else if eqUpperKey t (js "NOT") then some .NOT
  else if eqUpperKey t (js "SUBJECT") then some .SUBJECT
  else if eqUpperKey t (js "FROM") then some .FROM
  else if eqUpperKey t (js "TO") then some .TO
  else if eqUpperKey t (js "CC") then some .CC
  else if eqUpperKey t (js "BCC") then some .BCC
  else if eqUpperKey t (js "LIST") then some .LIST
  else if eqUpperKey t (js "SENDER") then some .SENDER
  else if eqUpperKey t (js "RECEIVER") then some .RECEIVER
  else if eqUpperKey t (js "BODY") then some .BODY
  else if eqUpperKey t (js "HEADER") then some .HEADER
  else if eqUpperKey t (js "THREAD") then some .THREAD
  else none

/-- The runtime value of `ThreadSubType[subtype.toUpperCase()]`.  A TS
numeric enum object maps each member name to its number and also carries
the reverse mapping from the digit keys `"0"`..`"8"` back to the member
*name strings*.  A subtype keyword therefore yields the numeric member
(`enumMember`), a digit `"0"`..`"8"` yields the corresponding name string
(`nameString` — a defined value, so the `=== undefined` check does not
throw for it), and anything else is `undefined`. -/
inductive ThreadSubTypeValue where
  | enumMember (v : ThreadSubType)
  | nameString (v : ThreadSubType)
deriving DecidableEq

/-- The enum lookup `ThreadSubType[subtype.toUpperCase()]`, including the
numeric-enum reverse mapping (`toUpperCase` leaves digits unchanged; no
all-uppercase-or-digit key exists on `Object.prototype`, so exactly the
nine names and the nine digit keys are defined). -/
def lookupThreadSubType (t : JSString) : Option ThreadSubTypeValue :=
  if eqUpperKey t (js "FIRST_MESSAGE_SUBJECT") then
    some (.enumMember .FIRST_MESSAGE_SUBJECT)
  else if eqUpperKey t (js "LABEL") then some (.enumMember .LABEL)
  else if eqUpperKey t (js "IS_STARRED") then some (.enumMember .IS_STARRED)
  else if eqUpperKey t (js "IS_IMPORTANT") then some (.enumMember .IS_IMPORTANT)
  else if eqUpperKey t (js "IS_IN_INBOX") then some (.enumMember .IS_IN_INBOX)
  else if eqUpperKey t (js "IS_IN_PRIORITY_INBOX") then
    some (.enumMember .IS_IN_PRIORITY_INBOX)
  else if eqUpperKey t (js "IS_IN_SPAM") then some (.enumMember .IS_IN_SPAM)
  else if eqUpperKey t (js "IS_IN_TRASH") then some (.enumMember .IS_IN_TRASH)
  else if eqUpperKey t (js "IS_UNREAD") then some (.enumMember .IS_UNREAD)
  else if eqUpperKey t (js "0") then some (.nameString .FIRST_MESSAGE_SUBJECT)
  else if eqUpperKey t (js "1") then some (.nameString .LABEL)
  else if eqUpperKey t (js "2") then some (.nameString .IS_STARRED)
  else if eqUpperKey t (js "3") then some (.nameString .IS_IMPORTANT)
  else if eqUpperKey t (js "4") then some (.nameString .IS_IN_INBOX)
  else if eqUpperKey t (js "5") then some (.nameString .IS_IN_PRIORITY_INBOX)
  else if eqUpperKey t (js "6") then some (.nameString .IS_IN_SPAM)
  else if eqUpperKey t (js "7") then some (.nameString .IS_IN_TRASH)
  else if eqUpperKey t (js "8") then some (.nameString .IS_UNREAD)
  else none

/-- A parsed `Condition` (`src/unnamed/part_001` lines 288-519), as a
tagged union: `AND`/`OR` hold their parsed sub-conditions, `NOT` holds its
single sub-condition (the constructor enforces exactly one), the leaf
matchers hold their compiled `RegExp`, `HEADER` also holds the header name
and `THREAD` its subtype. -/
inductive Condition where
  | AND (sub_conditions : List Condition)
  | OR (sub_conditions : List Condition)
  | NOT (sub : Condition)
  | SUBJECT (regexp : RMatcher)
  | FROM (regexp : RMatcher)
  | TO (regexp : RMatcher)
  | CC (regexp : RMatcher)
  | BCC (regexp : RMatcher)
  | LIST (regexp : RMatcher)
  | SENDER (regexp : RMatcher)
  | RECEIVER (regexp : RMatcher)
  | BODY (regexp : RMatcher)
  | HEADER (header : JSString) (regexp : RMatcher)
  | THREAD (threadSubtype : ThreadSubTypeValue) (regexp : RMatcher)

/-- `MessageData` (`src/index.ts` lines 169-240 and the later revision with
headers and thread attributes used by `src/unnamed/part_001`): the
normalized read-only view of one message that `Condition.match` consumes. -/
structure MessageData where
  from_ : JSString := []
  to_ : List JSString := []
  cc : List JSString := []
  bcc : List JSString := []
  list : JSString := []
  receivers : List JSString := []
  subject : JSString := []
  body : JSString := []
  headers : List (JSString × JSString) := []
  thread_is_important : Bool := false
  thread_is_in_inbox : Bool := false
  thread_is_in_priority_inbox : Bool := false
  thread_is_in_spam : Bool := false
  thread_is_in_trash : Bool := false
  thread_is_starred : Bool := false
  thread_is_unread : Bool := false
  thread_first_message_subject : JSString := []
  thread_labels : List JSString := []
deriving DecidableEq

/-- `message_data.headers.get(name)`: exact, case-sensitive key lookup. -/
def headersGet (hs : List (JSString × JSString)) (name : JSString) : Option JSString :=
  match hs with
  | [] => none
  | p :: rest => if p.1 = name then some p.2 else headersGet rest name

mutual

/-- `Condition.match(message_data)` from `src/unnamed/part_001` lines
410-497, in state-passing form: the result plus the condition with its
regexes' updated `lastIndex` state (mutated in place in JS). -/
def Condition.matchS : Condition → MessageData → Bool × Condition
  | .AND subs, m =>
    let bs := matchSAnd subs m
    (bs.1, .AND bs.2)
  | .OR subs, m =>
    let bs := matchSOr subs m
    (bs.1, .OR bs.2)
  | .NOT sub, m =>
    let bs := sub.matchS m
    (!bs.1, .NOT bs.2)
  | .FROM r, m =>
    let br := r.test m.from_
    (br.1, .FROM br.2)
  | .TO r, m =>
    let br := r.testSome m.to_
    (br.1, .TO br.2)
  | .CC r, m =>
    let br := r.testSome m.cc
    (br.1, .CC br.2)
  | .BCC r, m =>
    let br := r.testSome m.bcc
    (br.1, .BCC br.2)
  | .LIST r, m =>
    let br := r.test m.list
    (br.1, .LIST br.2)
  | .SENDER r, m =>
    let br := r.test m.from_
    (br.1, .SENDER br.2)
  | .RECEIVER r, m =>
    let br := r.testSome m.receivers
    (br.1, .RECEIVER br.2)
  | .SUBJECT r, m =>
    let br := r.test m.subject
    (br.1, .SUBJECT br.2)
  | .BODY r, m =>
    let br := r.test m.body
    (br.1, .BODY br.2)
  | .HEADER name r, m =>
    (match headersGet m.headers name with
     | some v =>
       let br := r.test v
       (br.1, .HEADER name br.2)
     | none => (false, .HEADER name r))
  | .THREAD tsv r, m =>
    (match tsv with
     | .enumMember st =>
       (match st with
        | .IS_IMPORTANT => (m.thread_is_important, .THREAD tsv r)
        | .IS_IN_INBOX => (m.thread_is_in_inbox, .THREAD tsv r)
        | .IS_IN_PRIORITY_INBOX => (m.thread_is_in_priority_inbox, .THREAD tsv r)
        | .IS_IN_SPAM => (m.thread_is_in_spam, .THREAD tsv r)
        | .IS_IN_TRASH => (m.thread_is_in_trash, .THREAD tsv r)
        | .IS_STARRED => (m.thread_is_starred, .THREAD tsv r)
        | .IS_UNREAD => (m.thread_is_unread, .THREAD tsv r)
        | .FIRST_MESSAGE_SUBJECT =>
          let br := r.test m.thread_first_message_subject
          (br.1, .THREAD tsv br.2)
        | .LABEL =>
          let br := r.testSome m.thread_labels
          (br.1, .THREAD tsv br.2))
     | .nameString _ =>
       -- A reverse-mapped name string matches no case of the numeric
       -- `switch (this.threadSubtype)`, so `match` falls through and
       -- returns `undefined`, which every caller consumes as falsy.
       (false, .THREAD tsv r))

/-- The `AND` loop: evaluate children left to right, stop at the first
`false`; children after the early return keep their state. -/
def matchSAnd : List Condition → MessageData → Bool × List Condition
  | [], _ => (true, [])
  | c :: cs, m =>
    let bc := c.matchS m
    if bc.1 then
      let rest := matchSAnd cs m
      (rest.1, bc.2 :: rest.2)
    else (false, bc.2 :: cs)

/-- The `OR` loop: evaluate children left to right, stop at the first
`true`; children after the early return keep their state. -/
def matchSOr : List Condition → MessageData → Bool × List Condition
  | [], _ => (false, [])
  | c :: cs, m =>
    let bc := c.matchS m
    if bc.1 then (true, bc.2 :: cs)
    else
      let rest := matchSOr cs m
      (rest.1, bc.2 :: rest.2)

end

/-- The boolean result of `Condition.match`.  For conditions whose regexes
carry neither the `g` nor the `y` flag this is the (stateless) value JS
computes. -/
def Condition.matchB (c : Condition) (m : MessageData) : Bool :=
  (c.matchS m).1

end ConditionModel

section ParserModel

/-- `type_str` extraction from the `Condition` constructor
(`src/unnamed/part_001` lines 350-351): the text between the opening `(`
and the first space, trimmed.  The source also upper-cases it; here the
upper-casing is folded into the keyword comparison `eqUpperKey` used by
`lookupConditionType`. -/
def typeStrOf (s : JSString) : JSString :=
  jsTrim (jsSubstring s 1 (jsIndexOf s ' '))

/-- `rest_str` extraction from the `Condition` constructor (line 352): the
text after the first space, without the closing `)`, trimmed. -/
def restStrOf (s : JSString) : JSString :=
  jsTrim (jsSubstring s (jsIndexOf s ' ' + 1) ((s.length : Int) - 1))

/-- `subtype` extraction for `HEADER`/`THREAD` conditions (lines 379-382). -/
def subtypeOf (rest : JSString) : JSString :=
  let sfs := jsIndexOf rest ' '
  if 0 < sfs then jsTrim (jsSubstring rest 0 sfs) else rest

/-- The re-assignment `rest_str = rest_str.substring(subtype_first_space +
1, rest_str.length).trim()` (line 396). -/
def subtypeRest (rest : JSString) : JSString :=
  jsTrim (jsSubstring rest (jsIndexOf rest ' ' + 1) (rest.length : Int))

/-- The scanning loop of `Condition.parseSubConditions`
(`src/unnamed/part_001` lines 290-315), parameterised by the parser
`child` used for the balanced substrings, so that the whole parser below
is structurally recursive on its fuel: `chars` is the unscanned tail of
`rest_str`, `idx` its position, `start`/`level` the loop state.  On `)` at
depth 0 the `Utils.assert(level >= 0)` fires; when the depth returns to 0
the balanced substring `rest_str.substring(start, end + 1)` is parsed
recursively; at the end of the string `Utils.assert(level === 0)` fires.  -/
def subScan (child : JSString → Except JSString Condition) :
    JSString → JSString → Nat → Nat → Nat → Except JSString (List Condition)
  | _, [], _, _, level =>
    if level = 0 then .ok []
    else .error (js "Condition has non-balanced parentheses overall.")
  | rest_str, c :: cs, idx, start, level =>
    if c = '(' then subScan child rest_str cs (idx + 1) start (level + 1)
    else if c = ')' then
      if level = 0 then .error (js "Condition has non-balanced parentheses")
      else if level = 1 then
        if start < idx then
          let sub_str := jsTrim (jsSubstring rest_str (start : Int) ((idx : Int) + 1))
          if sub_str.length > 0 then do
            let c1 ← child sub_str
            let rest ← subScan child rest_str cs (idx + 1) (idx + 1) 0
            .ok (c1 :: rest)
          else subScan child rest_str cs (idx + 1) (idx + 1) 0
        else subScan child rest_str cs (idx + 1) (idx + 1) 0
      else subScan child rest_str cs (idx + 1) start (level - 1)
    else subScan child rest_str cs (idx + 1) start level

/-- The `Condition` constructor (`src/unnamed/part_001` lines 346-408) as a
fuel-indexed total function; every `Utils.assert` failure and `throw`
becomes an `Except.error`.  The fuel only bounds the nesting depth of the
recursion: the top-level entry point `Condition.parse` supplies more fuel
than any input can consume. -/
def parseCondition : Nat → JSString → Except JSString Condition
  | 0, _ => .error (js "recursion fuel exhausted")
  | fuel + 1, condition_str0 =>
    let condition_str := jsTrim condition_str0
    if !(jsStartsWith condition_str '(' && jsEndsWith condition_str ')') then
      .error (js "Condition should be surrounded by parentheses.")
    else
      let rest_str := restStrOf condition_str
      match lookupConditionType (typeStrOf condition_str) with
      | some .AND => do
        let subs ← subScan (parseCondition fuel) rest_str rest_str 0 0 0
        .ok (.AND subs)
      | some .OR => do
        let subs ← subScan (parseCondition fuel) rest_str rest_str 0 0 0
        .ok (.OR subs)
      | some .NOT => do
        let subs ← subScan (parseCondition fuel) rest_str rest_str 0 0 0
        match subs with
        | [sub] => .ok (.NOT sub)
        | _ => .error (js "Conditions of type NOT must have exactly one sub-condition")
      | some .FROM => do
        let r ← parseRegExp rest_str condition_str true
        .ok (.FROM ⟨r, 0⟩)
      | some .TO => do
        let r ← parseRegExp rest_str condition_str true
        .ok (.TO ⟨r, 0⟩)
      | some .CC => do
        let r ← parseRegExp rest_str condition_str true
        .ok (.CC ⟨r, 0⟩)
      | some .BCC => do
        let r ← parseRegExp rest_str condition_str true
        .ok (.BCC ⟨r, 0⟩)
      | some .LIST => do
        let r ← parseRegExp rest_str condition_str true
        .ok (.LIST ⟨r, 0⟩)
      | some .SENDER => do
        let r ← parseRegExp rest_str condition_str true
        .ok (.SENDER ⟨r, 0⟩)
      | some .RECEIVER => do
        let r ← parseRegExp rest_str condition_str true
        .ok (.RECEIVER ⟨r, 0⟩)
      | some .SUBJECT => do
        let r ← parseRegExp rest_str condition_str false
        .ok (.SUBJECT ⟨r, 0⟩)
      | some .BODY => do
        let r ← parseRegExp rest_str condition_str false
        .ok (.BODY ⟨r, 0⟩)
      | some .HEADER => do
        let r ← parseRegExp (subtypeRest rest_str) condition_str true
        .ok (.HEADER (subtypeOf rest_str) ⟨r, 0⟩)
      | some .THREAD =>
        match lookupThreadSubType (subtypeOf rest_str) with
        | none => .error (js "Invalid thread subtype")
        | some tsv => do
          -- `===` is strict: only the numeric member equals
          -- `ThreadSubType.FIRST_MESSAGE_SUBJECT`; a reverse-mapped name
          -- string does not, so it keeps `matching_address` true.
          let r ← parseRegExp (subtypeRest rest_str) condition_str
            (tsv ≠ ThreadSubTypeValue.enumMember ThreadSubType.FIRST_MESSAGE_SUBJECT)
          .ok (.THREAD tsv ⟨r, 0⟩)
      | none => .error (js "Unexpected condition type")

/-- `Condition.parseSubConditions(rest_str, condition_str)` from
`src/unnamed/part_001` lines 290-315, as invoked with the given fuel for
its recursive `new Condition(sub_str)` calls. -/
def parseSubConditions (fuel : Nat) (rest_str : JSString) :
    Except JSString (List Condition) :=
  subScan (parseCondition fuel) rest_str rest_str 0 0 0

/-- `new Condition(condition_str)`: the fuel bound `length + 1` exceeds the
maximal parenthesis nesting depth of the input, so the fuel case is never
the reason a parse fails. -/
def Condition.parse (s : JSString) : Except JSString Condition :=
  parseCondition (s.length + 1) s

end ParserModel

section ProcessorModel

/-- `Rule` from `src/Rule.ts`: a parsed condition, a template
`ThreadAction` and an integer stage. -/
structure Rule where
  condition : Condition
  thread_action : ThreadAction
  stage : Nat

/-- Result of the per-message rule loop: the merged thread action, the
`thread_matched_a_rule` flag contribution, and (as instrumentation for the
theorems, not present in the source) the indices of the rules whose
condition was evaluated, in order. -/
structure ScanResult where
  ta : ThreadAction
  matched : Bool
  tested : List Nat
deriving DecidableEq

/-- `rule.stage > stopping_stage` where `stopping_stage` starts at
`Number.MAX_VALUE` (modelled as `none`, larger than every stage). -/
def stageGtStop (stage : Nat) : Option Nat → Bool
  | none => false
  | some s => stage > s

/-- The per-message rule loop of `Processor.processThread` from
`src/ThreadAction.ts` lines 110-142 (the revision whose `switch` examines
`rule.thread_action.action_after_match`, the matched rule's own directive,
and treats `DEFAULT` like `FINISH_STAGE`): rules are scanned in the given
(stage-sorted) order; a rule with `stage < min_stage` is skipped
(`continue`); scanning breaks before a rule with `stage > max_stage`; on a
match the rule's action is merged and the directive updates the state or
ends the scan.  The rules are paired with their indices so that the
`tested` trace can report which rules were evaluated. -/
def scanRules : List (Nat × Rule) → MessageData → ThreadAction → Bool →
    Nat → Option Nat → ScanResult
  | [], _, ta, matchedAcc, _, _ => ⟨ta, matchedAcc, []⟩
  | (i, rule) :: rest, m, ta, matchedAcc, min_stage, max_stage =>
    if rule.stage < min_stage then
      scanRules rest m ta matchedAcc min_stage max_stage
    else if stageGtStop rule.stage max_stage then ⟨ta, matchedAcc, []⟩
    else if rule.condition.matchB m then
      let ta' := ta.mergeFrom rule.thread_action true
      match rule.thread_action.action_after_match with
      | .DONE => ⟨ta', true, [i]⟩
      | .FINISH_STAGE =>
        let r := scanRules rest m ta' true min_stage (some rule.stage)
        ⟨r.ta, r.matched, i :: r.tested⟩
      | .DEFAULT =>
        let r := scanRules rest m ta' true min_stage (some rule.stage)
        ⟨r.ta, r.matched, i :: r.tested⟩
      | .NEXT_STAGE =>
        let r := scanRules rest m ta' true (rule.stage + 1) none
        ⟨r.ta, r.matched, i :: r.tested⟩
    else
      let r := scanRules rest m ta matchedAcc min_stage max_stage
      ⟨r.ta, r.matched, i :: r.tested⟩

/-- Attach indices to a rule list, as `scanRules` consumes it. -/
def withIndices (rules : List Rule) : List (Nat × Rule) :=
  (List.range rules.length).zip rules

/-- One message step of `Processor.processThread`
(`src/ThreadAction.ts`): `min_stage = 0`, `max_stage = Number.MAX_VALUE`. -/
def processMessage (rules : List Rule) (m : MessageData) (ta : ThreadAction) :
    ScanResult :=
  scanRules (withIndices rules) m ta false 0 none

/-- The per-message rule loop of the older `Processor.processThread` in
`src/Processor.ts` lines 9-37, whose `switch` examines
`thread_data.thread_action.action_after_match` — the cumulative thread
action after the merge — and has no `DEFAULT` case. -/
def scanRulesB : List Rule → MessageData → ThreadAction → Nat → Option Nat →
    ThreadAction
  | [], _, ta, _, _ => ta
  | rule :: rest, m, ta, min_stage, stopping_stage =>
    if rule.stage < min_stage then
      scanRulesB rest m ta min_stage stopping_stage
    else if stageGtStop rule.stage stopping_stage then ta
    else if rule.condition.matchB m then
      let ta' := ta.mergeFrom rule.thread_action true
      match ta'.action_after_match with
      | .DONE => ta'
      | .FINISH_STAGE => scanRulesB rest m ta' min_stage (some rule.stage)
      | .NEXT_STAGE => scanRulesB rest m ta' (rule.stage + 1) none
      | .DEFAULT => scanRulesB rest m ta' min_stage stopping_stage
    else scanRulesB rest m ta min_stage stopping_stage

/-- The data `ThreadData.validateActions` reads from the raw thread when
reporting an unmatched thread (`src/index.ts` lines 269-277). -/
structure UnmatchedThreadError where
  first_message_subject : JSString
  last_from : JSString
  last_to : JSString
deriving DecidableEq

/-- `ThreadData` (`src/index.ts` lines 243-277), restricted to the fields
the engine reads: the normalized messages, the cumulative action, and the
raw-thread attributes used by `validateActions` for error reporting. -/
structure ThreadData where
  message_data_list : List MessageData
  thread_action : ThreadAction := {}
  raw_first_message_subject : JSString := []
  raw_last_from : JSString := []
  raw_last_to : JSString := []

/-- `ThreadData.validateActions` from `src/index.ts` lines 269-277: throws
the unmatched-thread error exactly when the cumulative action has no
effective action and its `move_to` is not the `NOTHING` sentinel. -/
def ThreadData.validateActions (td : ThreadData) : Except UnmatchedThreadError Unit :=
  if !td.thread_action.hasAnyAction
      && td.thread_action.move_to ≠ InboxActionType.NOTHING then
    .error ⟨td.raw_first_message_subject, td.raw_last_from, td.raw_last_to⟩
  else .ok ()

/-- The cumulative thread action after the message loop of
`Processor.processThread` (`src/Processor.ts` lines 4-46): each message is
evaluated against the rules and the matched actions accumulate in
`thread_data.thread_action`. -/
def Processor.collectActionsB (rules : List Rule) (td : ThreadData) : ThreadAction :=
  td.message_data_list.foldl
    (fun ta m => scanRulesB rules m ta 0 none) td.thread_action

/-- `Processor.processThread` from `src/Processor.ts` lines 3-48: every
message is evaluated against the rules, the matched actions accumulate in
`thread_data.thread_action`, and afterwards `validateActions` runs. -/
def Processor.processThreadB (rules : List Rule) (td : ThreadData) :
    Except UnmatchedThreadError ThreadData :=
  let td' := { td with thread_action := Processor.collectActionsB rules td }
  match td'.validateActions with
  | .error e => .error e
  | .ok _ => .ok td'

end ProcessorModel

section SpecSidePredicates

/-- Depth scan deciding that a string has unbalanced parentheses in the
sense of `parseSubConditions`: some `)` closes an unopened group, or open
groups remain at the end. -/
def parenUnbalanced : Nat → JSString → Bool
  | level, [] => level ≠ 0
  | level, c :: cs =>
    if c = '(' then parenUnbalanced (level + 1) cs
    else if c = ')' then
      if level = 0 then true else parenUnbalanced (level - 1) cs
    else parenUnbalanced level cs

/-- Formalisation of the claim-side phrase "wrapped in a single balanced
`(...)` pair": the string starts with `(`, ends with `)`, the parentheses
balance overall, and the depth stays positive strictly inside, so the
opening parenthesis is closed only by the final character. -/
def singleBalancedWrapped (s : JSString) : Bool :=
  jsStartsWith s '(' && jsEndsWith s ')' && !parenUnbalanced 0 s
    && singleAux 0 s
where
  /-- The depth never returns to 0 before the last character. -/
  singleAux : Nat → JSString → Bool
  | _, [] => true
  | _, [_] => true
  | level, c :: cs =>
    if c = '(' then singleAux (level + 1) cs
    else if c = ')' then (level ≠ 1) && singleAux (level - 1) cs
    else singleAux level cs

/-- The full parent chain of one label: the label and every ancestor
obtained by repeatedly cutting at the last `/`, the set that
`addLabelChain` inserts.  Fueled like `addLabelChainF`. -/
def labelChainListF : Nat → JSString → List JSString
  | 0, _ => []
  | fuel + 1, l => if l = [] then [] else l :: labelChainListF fuel (cutParentLabel l)

/-- The full parent chain of one label, with enough fuel to be exact. -/
def labelChainList (l : JSString) : List JSString :=
  labelChainListF (l.length + 1) l

/-- The test helper of the source's regex tests (`test_regexp` in
`src/unnamed/part_001` lines 523-526): compile a pattern with
`Condition.parseRegExp` and test it against a target string. -/
def test_regexp (condition_str target : JSString) (is_address : Bool) :
    Except JSString Bool :=
  (parseRegExp condition_str [] is_address).map
    (fun m => (Matcher.test m 0 target).1)

end SpecSidePredicates

section Examples

/-- The parsed form of the condition `(thread is_starred)`, used as an
always-matching condition in the staged-evaluation scenarios. -/
def exCond : Condition :=
  .THREAD (.enumMember .IS_STARRED) ⟨.address (js "is_starred"), 0⟩

/-- A message on a starred thread, so that `exCond` matches it. -/
def exMsg : MessageData := { thread_is_starred := true }

/-- A message whose subject is the single character `a`, for the
regex-literal statefulness example. -/
def exSubjectMsg : MessageData := { subject := js "a" }

/-- A rule at the given stage whose condition is `exCond`, adding one label
and carrying the given post-match directive. -/
def exRule (st : Nat) (lbl : JSString) (aam : ActionAfterMatchType) : Rule :=
  { condition := exCond
    thread_action := { label_names := [lbl], action_after_match := aam }
    stage := st }

/-- The `lastIndex` of the regex of a `SUBJECT` leaf, for observing the
state mutation performed by `match` on a `g`-flagged regex. -/
def subjectLastIndex : Condition → Option Nat
  | .SUBJECT r => some r.lastIndex
  | _ => none

/-- A thread with no messages and the raw attributes used in unmatched
thread error reports. -/
def exThreadData : ThreadData :=
  { message_data_list := []
    raw_first_message_subject := js "subj"
    raw_last_from := js "a@b.c"
    raw_last_to := js "d@e.f" }

end Examples

section CaseEquivalence

/-- Case-equivalence of two characters under the ASCII lower-casing that
the `i` regex flag performs: the comparison `charEqCI true` identifies
exactly the pairs related by `ciEqChar`. -/
def ciEqChar (a b : Char) : Prop := lowerNat a.toNat = lowerNat b.toNat

instance : DecidableRel ciEqChar := fun a b => by
  unfold ciEqChar
  infer_instance

/-- Pointwise case-equivalence of two strings. -/
def ciEqStr (s t : JSString) : Prop := List.Forall₂ ciEqChar s t

instance ciEqStr.dec : ∀ (s t : JSString), Decidable (ciEqStr s t)
  | [], [] => isTrue List.Forall₂.nil
  | [], _ :: _ => isFalse (fun h => by cases h)
  | _ :: _, [] => isFalse (fun h => by cases h)
  | a :: as, b :: bs =>
    match inferInstanceAs (Decidable (ciEqChar a b)), ciEqStr.dec as bs with
    | isTrue h1, isTrue h2 => isTrue (List.Forall₂.cons h1 h2)
    | isFalse h1, _ => isFalse (fun h => by cases h with | cons hc _ => exact h1 hc)
    | isTrue _, isFalse h2 =>
      isFalse (fun h => by cases h with | cons _ hr => exact h2 hr)

/-- Case-equivalence on optional remainders, for tracking `consumeLit`
through case-equivalent targets. -/
inductive OptCI : Option JSString → Option JSString → Prop where
  | none : OptCI none none
  | some {r r' : JSString} : ciEqStr r r' → OptCI (some r) (some r')

/-- Case-equivalence on optional preceding characters, for tracking the
`(^|<)` start group through case-equivalent targets. -/
inductive PrevCI : Option Char → Option Char → Prop where
  | none : PrevCI none none
  | some {c c' : Char} : ciEqChar c c' → PrevCI (some c) (some c')

end CaseEquivalence

/-! ## Theorems -/

theorem jsLastIndexOf_lt_length (l : JSString) (c : Char) :
    (jsLastIndexOf l c).toNat ≤ l.length - 1 ∨ (jsLastIndexOf l c).toNat = 0 := by
  unfold jsLastIndexOf
  cases h : jsIndexOfAux c l.reverse 0 with
  | none => right; rfl
  | some i =>
    rcases le_or_lt ((l.length : Int) - 1 - (i : Int)).toNat (l.length - 1) with h1 | h1
    · left; exact h1
    · right; omega

theorem cutParentLabel_length_lt (l : JSString) (h : l ≠ []) :
    (cutParentLabel l).length < l.length := by
  have hlen : 0 < l.length := List.length_pos.mpr h
  unfold cutParentLabel jsSubstring clampIdx
  simp only [List.length_drop, List.length_take]
  have := jsLastIndexOf_lt_length l '/'
  omega

theorem mem_setAdd (s : List JSString) (x y : JSString) :
    y ∈ setAdd s x ↔ y ∈ s ∨ y = x := by
  unfold setAdd
  split
  · next hx =>
    constructor
    · exact Or.inl
    · rintro (h | rfl)
      · exact h
      · exact hx
  · simp

theorem mem_addLabelChainF (x : JSString) :
    ∀ (fuel : Nat) (l : JSString) (s : List JSString), l.length < fuel →
      (x ∈ addLabelChainF fuel s l ↔ x ∈ s ∨ x ∈ labelChainListF fuel l) := by
  intro fuel
  induction fuel with
  | zero => intro l s h; omega
  | succ n ih =>
    intro l s h
    unfold addLabelChainF labelChainListF
    by_cases hl : l = []
    · simp [hl]
    · have hcut : (cutParentLabel l).length < n := by
        have := cutParentLabel_length_lt l hl
        omega
      simp only [hl, if_false]
      rw [ih (cutParentLabel l) (setAdd s l) hcut, mem_setAdd]
      simp only [List.mem_cons]
      tauto

theorem mem_addLabelChain (s : List JSString) (l x : JSString) :
    x ∈ addLabelChain s l ↔ x ∈ s ∨ x ∈ labelChainList l := by
  unfold addLabelChain labelChainList
  exact mem_addLabelChainF x (l.length + 1) l s (by omega)

theorem labelChainListF_fuel (x : JSString) :
    ∀ (f1 f2 : Nat) (l : JSString), l.length < f1 → l.length < f2 →
      (x ∈ labelChainListF f1 l ↔ x ∈ labelChainListF f2 l) := by
  intro f1
  induction f1 with
  | zero => intro f2 l h; omega
  | succ n ih =>
    intro f2 l h1 h2
    cases f2 with
    | zero => omega
    | succ m =>
      unfold labelChainListF
      by_cases hl : l = []
      · simp [hl]
      · have := cutParentLabel_length_lt l hl
        simp only [hl, if_false, List.mem_cons]
        rw [ih m (cutParentLabel l) (by omega) (by omega)]

theorem mem_labelChainList (l x : JSString) :
    x ∈ labelChainList l ↔ x ∈ labelChainListF (l.length + 1) l := Iff.rfl

theorem self_mem_labelChainList (l : JSString) (h : l ≠ []) :
    l ∈ labelChainList l := by
  unfold labelChainList labelChainListF
  simp [h]

theorem mem_addStep (b : Bool) (s : List JSString) (l x : JSString) :
    x ∈ (if b then addLabelChain s l else setAdd s l)
      ↔ x ∈ s ∨ x ∈ (if b then labelChainList l else [l]) := by
  cases b
  · simpa using mem_setAdd s l x
  · simpa using mem_addLabelChain s l x

theorem mem_addLabels_fold (b : Bool) (x : JSString) :
    ∀ (names : List JSString) (acc : List JSString),
      (x ∈ names.foldl
          (fun s label => if b then addLabelChain s label else setAdd s label) acc
        ↔ x ∈ acc ∨ ∃ l ∈ names, x ∈ (if b then labelChainList l else [l])) := by
  intro names
  induction names with
  | nil => simp
  | cons n rest ih =>
    intro acc
    simp only [List.foldl_cons]
    rw [ih, mem_addStep]
    constructor
    · rintro (⟨h | h⟩ | ⟨l, hl, hx⟩)
      · exact Or.inl h
      · exact Or.inr ⟨n, List.mem_cons_self n rest, h⟩
      · exact Or.inr ⟨l, List.mem_cons_of_mem n hl, hx⟩
    · rintro (h | ⟨l, hl, hx⟩)
      · exact Or.inl (Or.inl h)
      · rcases List.mem_cons.mp hl with rfl | hl
        · exact Or.inl (Or.inr hx)
        · exact Or.inr ⟨l, hl, hx⟩

theorem mem_addLabels (ta : ThreadAction) (names : List JSString) (b : Bool)
    (x : JSString) :
    x ∈ (ta.addLabels names b).label_names
      ↔ x ∈ ta.label_names ∨ ∃ l ∈ names, x ∈ (if b then labelChainList l else [l]) := by
  unfold ThreadAction.addLabels
  exact mem_addLabels_fold b x names ta.label_names

theorem mergeFrom_label_names (ta o : ThreadAction) (b : Bool) (x : JSString) :
    x ∈ (ta.mergeFrom o b).label_names
      ↔ x ∈ ta.label_names
        ∨ ∃ l ∈ o.label_names, x ∈ (if b then labelChainList l else [l]) := by
  simp only [ThreadAction.mergeFrom]
  split <;> split <;> split <;> split <;> simp [mem_addLabels]

theorem mergeFrom_move_to (ta o : ThreadAction) (b : Bool) :
    (ta.mergeFrom o b).move_to
      = if o.move_to = InboxActionType.DEFAULT then ta.move_to else o.move_to := by
  simp only [ThreadAction.mergeFrom, ThreadAction.addLabels]
  split <;> split <;> split <;> split <;> simp_all

theorem mergeFrom_important (ta o : ThreadAction) (b : Bool) :
    (ta.mergeFrom o b).important
      = if o.important = BooleanActionType.DEFAULT then ta.important else o.important := by
  simp only [ThreadAction.mergeFrom, ThreadAction.addLabels]
  split <;> split <;> split <;> split <;> simp_all

theorem mergeFrom_read (ta o : ThreadAction) (b : Bool) :
    (ta.mergeFrom o b).read
      = if o.read = BooleanActionType.DEFAULT then ta.read else o.read := by
  simp only [ThreadAction.mergeFrom, ThreadAction.addLabels]
  split <;> split <;> split <;> split <;> simp_all

theorem mergeFrom_auto_label (ta o : ThreadAction) (b : Bool) :
    (ta.mergeFrom o b).auto_label
      = if o.auto_label = BooleanActionType.DEFAULT then ta.auto_label else o.auto_label := by
  simp only [ThreadAction.mergeFrom, ThreadAction.addLabels]
  split <;> split <;> split <;> split <;> simp_all

theorem mergeFrom_action_after_match_eq (ta o : ThreadAction) (b : Bool) :
    (ta.mergeFrom o b).action_after_match = ta.action_after_match := by
  simp only [ThreadAction.mergeFrom, ThreadAction.addLabels]
  split <;> split <;> split <;> split <;> rfl

/-- C8: `addLabels` with `expandParents = true` inserts, for every given
label, the label itself and every ancestor obtained by repeatedly cutting
at the last `/` until no separator remains, so `["a/b/c"]` yields exactly
the labels `a/b/c`, `a/b` and `a`; with `expandParents = false` it inserts
exactly the given names, so `["a/b/c"]` yields exactly `a/b/c`. -/
theorem C8_addLabels_expandParents :
    (∀ (ta : ThreadAction) (names : List JSString) (x : JSString),
        x ∈ (ta.addLabels names true).label_names
          ↔ x ∈ ta.label_names ∨ ∃ l ∈ names, x ∈ labelChainList l)
  ∧ (∀ (ta : ThreadAction) (names : List JSString) (x : JSString),
        x ∈ (ta.addLabels names false).label_names
          ↔ x ∈ ta.label_names ∨ x ∈ names)
  ∧ (ThreadAction.addLabels {} [js "a/b/c"] true).label_names
      = [js "a/b/c", js "a/b", js "a"]
  ∧ (ThreadAction.addLabels {} [js "a/b/c"] false).label_names = [js "a/b/c"]
  ∧ labelChainList (js "a/b/c") = [js "a/b/c", js "a/b", js "a"] := by
  refine ⟨?_, ?_, by decide, by decide, by decide⟩
  · intro ta names x
    simpa using mem_addLabels ta names true x
  · intro ta names x
    simpa using mem_addLabels ta names false x

/-- C3: `mergeFrom` unions the other action's label names into self (the
exact union when parent labeling is off; with parent labeling on, ancestor
labels are inserted as well), overwrites `move_to` only when
`other.move_to` is not DEFAULT, and independently overwrites each of
`important`, `read` and `auto_label` only when the corresponding field of
`other` is not DEFAULT; across a sequence of merges each field holds the
last non-default value written: merging ARCHIVE/important=ENABLE and then
TRASH/important=DISABLE yields move_to=TRASH and important=DISABLE. -/
theorem C3_mergeFrom_semantics :
    (∀ (ta o : ThreadAction) (x : JSString),
        x ∈ (ta.mergeFrom o false).label_names
          ↔ x ∈ ta.label_names ∨ x ∈ o.label_names)
  ∧ (∀ (ta o : ThreadAction) (b : Bool) (x : JSString),
        x ∈ ta.label_names → x ∈ (ta.mergeFrom o b).label_names)
  ∧ (∀ (ta o : ThreadAction) (b : Bool) (x : JSString),
        x ∈ o.label_names → x ≠ [] → x ∈ (ta.mergeFrom o b).label_names)
  ∧ (∀ (ta o : ThreadAction) (b : Bool),
        (ta.mergeFrom o b).move_to
          = if o.move_to = InboxActionType.DEFAULT then ta.move_to else o.move_to)
  ∧ (∀ (ta o : ThreadAction) (b : Bool),
        (ta.mergeFrom o b).important
          = if o.important = BooleanActionType.DEFAULT then ta.important else o.important)
  ∧ (∀ (ta o : ThreadAction) (b : Bool),
        (ta.mergeFrom o b).read
          = if o.read = BooleanActionType.DEFAULT then ta.read else o.read)
  ∧ (∀ (ta o : ThreadAction) (b : Bool),
        (ta.mergeFrom o b).auto_label
          = if o.auto_label = BooleanActionType.DEFAULT then ta.auto_label else o.auto_label)
  ∧ ((({} : ThreadAction).mergeFrom
        { move_to := .ARCHIVE, important := .ENABLE } true).mergeFrom
        { move_to := .TRASH, important := .DISABLE } true).move_to
      = InboxActionType.TRASH
  ∧ ((({} : ThreadAction).mergeFrom
        { move_to := .ARCHIVE, important := .ENABLE } true).mergeFrom
        { move_to := .TRASH, important := .DISABLE } true).important
      = BooleanActionType.DISABLE := by
  refine ⟨?_, ?_, ?_, mergeFrom_move_to, mergeFrom_important, mergeFrom_read,
    mergeFrom_auto_label, by decide, by decide⟩
  · intro ta o x
    simpa using mergeFrom_label_names ta o false x
  · intro ta o b x hx
    exact (mergeFrom_label_names ta o b x).mpr (Or.inl hx)
  · intro ta o b x hx hne
    refine (mergeFrom_label_names ta o b x).mpr (Or.inr ⟨x, hx, ?_⟩)
    cases b
    · simp
    · simpa using self_mem_labelChainList x hne

theorem C3_mergeFrom_semantics_witness :
    js "abc" ∈ ((({} : ThreadAction).mergeFrom
        { label_names := [js "abc"] } true).label_names) :=
  C3_mergeFrom_semantics.2.2.1 {} { label_names := [js "abc"] } true (js "abc")
    (by decide) (by decide)

/-- C2 counterexample: merging a rule action whose `action_after_match` is
DONE into a fresh thread action leaves the cumulative
`action_after_match` at DEFAULT — the merged thread action does not hold
the most recently merged rule's directive, contrary to the claim. -/
theorem C2_counterexample_merge_keeps_default :
    (({} : ThreadAction).mergeFrom
        { action_after_match := .DONE } true).action_after_match
        = ActionAfterMatchType.DEFAULT
      ∧ ActionAfterMatchType.DEFAULT ≠ ActionAfterMatchType.DONE := by
  constructor
  · decide
  · decide

/-- C2 (amended): when a rule's condition matches, the control-flow branch
taken by the Processor is determined by that matched rule's own
`action_after_match` directive and not by the cumulative thread action —
the trace of evaluated rules does not depend on the accumulated
`ThreadAction` at all — while `mergeFrom` leaves the cumulative
`action_after_match` unchanged (it is not overwritten with the matched
rule's directive). -/
theorem C2_directive_from_rule :
    (∀ (irs : List (Nat × Rule)) (m : MessageData) (ta ta' : ThreadAction)
        (acc acc' : Bool) (min_stage : Nat) (max_stage : Option Nat),
        (scanRules irs m ta acc min_stage max_stage).tested
          = (scanRules irs m ta' acc' min_stage max_stage).tested)
  ∧ (∀ (ta o : ThreadAction) (b : Bool),
        (ta.mergeFrom o b).action_after_match = ta.action_after_match) := by
  constructor
  · intro irs
    induction irs with
    | nil => intro m ta ta' acc acc' mn mx; rfl
    | cons p rest ih =>
      intro m ta ta' acc acc' mn mx
      obtain ⟨i, rule⟩ := p
      by_cases h1 : rule.stage < mn
      · simp only [scanRules, h1, if_true]
        exact ih m ta ta' acc acc' mn mx
      · by_cases h2 : stageGtStop rule.stage mx = true
        · simp only [scanRules, h1, if_false, h2, if_true]
        · by_cases h3 : rule.condition.matchB m = true
          · simp only [scanRules, h1, if_false, h2, h3, if_true]
            cases haam : rule.thread_action.action_after_match <;>
              simp only [haam] <;> simp <;>
              exact ih _ _ _ _ _ _ _
          · simp only [scanRules, h1, if_false, h2, h3]
            simp [ih m ta ta' acc acc' mn mx]
  · exact mergeFrom_action_after_match_eq

theorem scan_df_post (m : MessageData) (S : Nat) :
    ∀ (irs : List (Nat × Rule)) (ta : ThreadAction) (acc : Bool),
      (∀ p ∈ irs,
        p.2.thread_action.action_after_match = ActionAfterMatchType.DEFAULT
          ∨ p.2.thread_action.action_after_match = ActionAfterMatchType.FINISH_STAGE) →
      (∀ p ∈ irs, S ≤ p.2.stage) →
      (scanRules irs m ta acc 0 (some S)).tested
        = (irs.takeWhile (fun p => p.2.stage ≤ S)).map (fun p => p.1) := by
  intro irs
  induction irs with
  | nil => intro ta acc _ _; rfl
  | cons p rest ih =>
    intro ta acc hdir hge
    obtain ⟨i, rule⟩ := p
    have h0 : ¬ rule.stage < 0 := Nat.not_lt_zero _
    have hS : S ≤ rule.stage := hge (i, rule) (List.mem_cons_self _ _)
    have hdir' : ∀ p ∈ rest,
        p.2.thread_action.action_after_match = ActionAfterMatchType.DEFAULT
          ∨ p.2.thread_action.action_after_match = ActionAfterMatchType.FINISH_STAGE :=
      fun p hp => hdir p (List.mem_cons_of_mem _ hp)
    have hge' : ∀ p ∈ rest, S ≤ p.2.stage :=
      fun p hp => hge p (List.mem_cons_of_mem _ hp)
    by_cases hgt : rule.stage > S
    · have hst : stageGtStop rule.stage (some S) = true := by
        simp [stageGtStop, hgt]
      have hnle : ¬ rule.stage ≤ S := by omega
      simp [scanRules, h0, hst, List.takeWhile_cons, hnle]
    · have heq : rule.stage = S := by omega
      have hstop : ¬ stageGtStop rule.stage (some S) = true := by
        simp [stageGtStop, hgt]
      have hle : rule.stage ≤ S := le_of_eq heq
      by_cases hm : rule.condition.matchB m = true
      · rcases hdir (i, rule) (List.mem_cons_self _ _) with hd0 | hd0
        · have hd : rule.thread_action.action_after_match
              = ActionAfterMatchType.DEFAULT := hd0
          simp only [scanRules, h0, if_false, hstop, hm, if_true, hd,
            List.takeWhile_cons]
          rw [heq]
          simp [hle, heq,
            ih (ta.mergeFrom rule.thread_action true) true hdir' hge']
        · have hd : rule.thread_action.action_after_match
              = ActionAfterMatchType.FINISH_STAGE := hd0
          simp only [scanRules, h0, if_false, hstop, hm, if_true, hd,
            List.takeWhile_cons]
          rw [heq]
          simp [hle, heq,
            ih (ta.mergeFrom rule.thread_action true) true hdir' hge']
      · simp only [scanRules, h0, if_false, hstop, hm, List.takeWhile_cons]
        simp [hle, ih ta acc hdir' hge']

theorem scan_df_main (m : MessageData) :
    ∀ (irs : List (Nat × Rule)) (ta : ThreadAction) (acc : Bool),
      (∀ p ∈ irs,
        p.2.thread_action.action_after_match = ActionAfterMatchType.DEFAULT
          ∨ p.2.thread_action.action_after_match = ActionAfterMatchType.FINISH_STAGE) →
      List.Pairwise (fun a b => a.2.stage ≤ b.2.stage) irs →
      (scanRules irs m ta acc 0 none).tested
        = (match irs.find? (fun p => p.2.condition.matchB m) with
           | none => irs.map (fun p => p.1)
           | some q => (irs.takeWhile (fun p => p.2.stage ≤ q.2.stage)).map
               (fun p => p.1)) := by
  intro irs
  induction irs with
  | nil => intro ta acc _ _; rfl
  | cons p rest ih =>
    intro ta acc hdir hsort
    obtain ⟨i, rule⟩ := p
    have h0 : ¬ rule.stage < 0 := Nat.not_lt_zero _
    have hstop : ¬ stageGtStop rule.stage none = true := by simp [stageGtStop]
    have hdir' : ∀ p ∈ rest,
        p.2.thread_action.action_after_match = ActionAfterMatchType.DEFAULT
          ∨ p.2.thread_action.action_after_match = ActionAfterMatchType.FINISH_STAGE :=
      fun p hp => hdir p (List.mem_cons_of_mem _ hp)
    have hrel : ∀ p ∈ rest, rule.stage ≤ p.2.stage :=
      fun p hp => (List.pairwise_cons.mp hsort).1 p hp
    by_cases hm : rule.condition.matchB m = true
    · have hfind : ((i, rule) :: rest).find? (fun p => p.2.condition.matchB m)
          = some (i, rule) := List.find?_cons_of_pos _ (by simpa using hm)
      rcases hdir (i, rule) (List.mem_cons_self _ _) with hd0 | hd0
      · have hd : rule.thread_action.action_after_match
            = ActionAfterMatchType.DEFAULT := hd0
        simp only [scanRules, h0, if_false, hstop, hm, if_true, hd, hfind,
          List.takeWhile_cons]
        simp [scan_df_post m rule.stage rest
          (ta.mergeFrom rule.thread_action true) true hdir' hrel]
      · have hd : rule.thread_action.action_after_match
            = ActionAfterMatchType.FINISH_STAGE := hd0
        simp only [scanRules, h0, if_false, hstop, hm, if_true, hd, hfind,
          List.takeWhile_cons]
        simp [scan_df_post m rule.stage rest
          (ta.mergeFrom rule.thread_action true) true hdir' hrel]
    · have hfind : ((i, rule) :: rest).find? (fun p => p.2.condition.matchB m)
          = rest.find? (fun p => p.2.condition.matchB m) :=
        List.find?_cons_of_neg _ (by simpa using hm)
      simp only [scanRules, h0, if_false, hstop, hm, hfind]
      rw [ih ta acc hdir' (List.pairwise_cons.mp hsort).2]
      cases htail : rest.find? (fun p => p.2.condition.matchB m) with
      | none => simp
      | some q =>
        have hq : q ∈ rest := List.mem_of_find?_eq_some htail
        have : rule.stage ≤ q.2.stage := hrel q hq
        simp [List.takeWhile_cons, this]

/-- C1: staged evaluation per message.  Scanning starts with
`min_stage = 0` and `stopping_stage = +infinity`; rules whose stage is
below `min_stage` are skipped and scanning stops before any rule whose
stage exceeds the stopping stage.  For stage-sorted rules whose directives
are all DEFAULT or FINISH_STAGE, a match sets the stopping stage to the
matched rule's own stage, so exactly the rules whose stage does not exceed
the first matching rule's stage are evaluated: remaining rules at the same
stage still evaluate and every rule of strictly greater stage does not
(first conjunct).  For the spec's concrete scenarios: with all-matching
rules at stages 5, 5 and 15 and DEFAULT directives, the two stage-5 rules
evaluate and the stage-15 rule does not; with a NEXT_STAGE match at stage
5, the second stage-5 rule is skipped but stage 15 still evaluates; with a
DONE match, no further rules evaluate for that message. -/
theorem C1_staged_evaluation :
    (∀ (irs : List (Nat × Rule)) (m : MessageData) (ta : ThreadAction) (acc : Bool),
        (∀ p ∈ irs,
          p.2.thread_action.action_after_match = ActionAfterMatchType.DEFAULT
            ∨ p.2.thread_action.action_after_match = ActionAfterMatchType.FINISH_STAGE) →
        List.Pairwise (fun a b => a.2.stage ≤ b.2.stage) irs →
        (scanRules irs m ta acc 0 none).tested
          = (match irs.find? (fun p => p.2.condition.matchB m) with
             | none => irs.map (fun p => p.1)
             | some q => (irs.takeWhile (fun p => p.2.stage ≤ q.2.stage)).map
                 (fun p => p.1)))
  ∧ (processMessage
        [exRule 5 (js "a") .DEFAULT, exRule 5 (js "b") .DEFAULT,
         exRule 15 (js "c") .DEFAULT] exMsg {}).tested = [0, 1]
  ∧ (processMessage
        [exRule 5 (js "a") .DEFAULT, exRule 5 (js "b") .DEFAULT,
         exRule 15 (js "c") .DEFAULT] exMsg {}).ta.label_names = [js "a", js "b"]
  ∧ (processMessage
        [exRule 5 (js "a") .NEXT_STAGE, exRule 5 (js "b") .DEFAULT,
         exRule 15 (js "c") .DEFAULT] exMsg {}).tested = [0, 2]
  ∧ (processMessage
        [exRule 5 (js "a") .DONE, exRule 5 (js "b") .DEFAULT,
         exRule 15 (js "c") .DEFAULT] exMsg {}).tested = [0] := by
  refine ⟨?_, by decide, by decide, by decide, by decide⟩
  intro irs m ta acc hdir hsort
  exact scan_df_main m irs ta acc hdir hsort

theorem C1_staged_evaluation_witness :
    (scanRules (withIndices [exRule 5 (js "a") .DEFAULT, exRule 7 (js "b") .DEFAULT])
        exMsg {} false 0 none).tested = [0] := by
  have h := C1_staged_evaluation.1
    (withIndices [exRule 5 (js "a") .DEFAULT, exRule 7 (js "b") .DEFAULT])
    exMsg {} false (by decide) (by decide)
  exact h.trans (by decide)

/-- C4: after all messages of a thread are evaluated, the unmatched-thread
error — identifying the thread by its first-message subject and the latest
message's from/to — is raised if and only if the cumulative action has no
effective action (no labels, DEFAULT `move_to`, DEFAULT `important` and
`read`) and its `move_to` is not the no-op sentinel NOTHING. -/
theorem C4_unmatched_thread_error (rules : List Rule) (td : ThreadData) :
    Processor.processThreadB rules td
        = .error ⟨td.raw_first_message_subject, td.raw_last_from, td.raw_last_to⟩
      ↔ ((Processor.collectActionsB rules td).label_names = []
        ∧ (Processor.collectActionsB rules td).move_to = InboxActionType.DEFAULT
        ∧ (Processor.collectActionsB rules td).important = BooleanActionType.DEFAULT
        ∧ (Processor.collectActionsB rules td).read = BooleanActionType.DEFAULT)
        ∧ (Processor.collectActionsB rules td).move_to ≠ InboxActionType.NOTHING := by
  simp only [Processor.processThreadB, ThreadData.validateActions]
  set ta := Processor.collectActionsB rules td with hta
  by_cases hval :
      (!ta.hasAnyAction && decide (ta.move_to ≠ InboxActionType.NOTHING)) = true
  · have hval' := hval
    simp only [Bool.and_eq_true, Bool.not_eq_true', decide_eq_true_eq] at hval'
    obtain ⟨hany, hnn⟩ := hval'
    simp only [ThreadAction.hasAnyAction, Bool.or_eq_false_iff,
      decide_eq_false_iff_not, not_lt, Nat.le_zero, List.length_eq_zero,
      not_not] at hany
    rw [if_pos hval]
    constructor
    · intro _
      exact ⟨⟨hany.1.1.1, by simpa using hany.1.1.2, by simpa using hany.1.2,
        by simpa using hany.2⟩, hnn⟩
    · intro _
      rfl
  · rw [if_neg hval]
    constructor
    · intro h
      exact Except.noConfusion h
    · rintro ⟨⟨h1, h2, h3, h4⟩, h5⟩
      exfalso
      apply hval
      simp [ThreadAction.hasAnyAction, h1, h2, h3, h4, h5]

/-- C10: a `ThreadAction` whose only non-default field is `auto_label`
counts as having no effective action: `hasAnyAction` is false whenever
`label_names` is empty and `move_to`, `important` and `read` are all
DEFAULT, regardless of `auto_label`, and a thread whose cumulative action
has this shape still raises the unmatched-thread error (its `move_to`,
being DEFAULT, is not the `NOTHING` sentinel). -/
theorem C10_auto_label_not_effective (td : ThreadData) :
    td.thread_action.label_names = [] →
    td.thread_action.move_to = InboxActionType.DEFAULT →
    td.thread_action.important = BooleanActionType.DEFAULT →
    td.thread_action.read = BooleanActionType.DEFAULT →
    td.thread_action.hasAnyAction = false
      ∧ td.validateActions = .error ⟨td.raw_first_message_subject,
          td.raw_last_from, td.raw_last_to⟩ := by
  intro h1 h2 h3 h4
  have hany : td.thread_action.hasAnyAction = false := by
    simp [ThreadAction.hasAnyAction, h1, h2, h3, h4]
  refine ⟨hany, ?_⟩
  unfold ThreadData.validateActions
  have hc : (!td.thread_action.hasAnyAction
      && decide (td.thread_action.move_to ≠ InboxActionType.NOTHING)) = true := by
    simp [hany, h2]
  rw [if_pos hc]

theorem C10_auto_label_not_effective_witness :
    ({ message_data_list := [], thread_action := { auto_label := .ENABLE },
       raw_first_message_subject := js "subj", raw_last_from := js "a@b.c",
       raw_last_to := js "d@e.f" } : ThreadData).thread_action.hasAnyAction = false
    ∧ ({ message_data_list := [], thread_action := { auto_label := .ENABLE },
         raw_first_message_subject := js "subj", raw_last_from := js "a@b.c",
         raw_last_to := js "d@e.f" } : ThreadData).validateActions
        = .error ⟨js "subj", js "a@b.c", js "d@e.f"⟩ :=
  C10_auto_label_not_effective
    { message_data_list := [], thread_action := { auto_label := .ENABLE },
      raw_first_message_subject := js "subj", raw_last_from := js "a@b.c",
      raw_last_to := js "d@e.f" } rfl rfl rfl rfl

/-- C6: for address matchers with a default (non-regex, non-quoted)
pattern, a `+label` suffix before the `@` of the target address is ignored
unless the pattern itself specifies a label, and a quoted exact pattern
rejects any label suffix not present in the pattern. -/
theorem C6_address_label_suffix :
    test_regexp (js "some-list@x.com") (js "some-list+tag@x.com") true = .ok true
  ∧ test_regexp (js "some-list+tag1@x.com") (js "some-list+tag2@x.com") true
      = .ok false
  ∧ test_regexp (js "some-list+tag1@x.com") (js "some-list+tag1@x.com") true
      = .ok true
  ∧ test_regexp (js "\"a@x.com\"") (js "a+tag@x.com") true = .ok false := by
  exact ⟨by decide, by decide, by decide, by decide⟩

/-- C9 (violation): condition matching is not pure or deterministic for a
regex-literal pattern carrying the supported `g` flag: `(subject /a/g)`
parses successfully with the regex `lastIndex` at 0; matching it against a
message with subject `a` returns true and mutates the condition, advancing
`lastIndex` to 1; matching the resulting condition against the same
message returns false. -/
theorem C9_match_not_deterministic_g_flag :
    ((Condition.parse (js "(subject /a/g)")).map
        (fun c => subjectLastIndex c)) = .ok (some 0)
  ∧ ((Condition.parse (js "(subject /a/g)")).map
        (fun c =>
          let r1 := c.matchS exSubjectMsg
          let r2 := r1.2.matchS exSubjectMsg
          (r1.1, subjectLastIndex r1.2, r2.1))) = .ok (true, some 1, false) := by
  exact ⟨by decide, by decide⟩

theorem char_eq_iff_toNat (a b : Char) : a = b ↔ a.toNat = b.toNat := by
  constructor
  · intro h
    rw [h]
  · intro h
    have h2 := congrArg Char.ofNat h
    rwa [Char.ofNat_toNat, Char.ofNat_toNat] at h2

theorem ciEqChar_transfer_low (a b ch : Char) (h : ciEqChar a b)
    (hch : ch.toNat < 65) : a = ch ↔ b = ch := by
  rw [char_eq_iff_toNat, char_eq_iff_toNat]
  unfold ciEqChar lowerNat at h
  split at h <;> split at h <;> omega

theorem charEqCI_transfer (p a b : Char) (h : ciEqChar a b) :
    charEqCI true p a = charEqCI true p b := by
  unfold ciEqChar at h
  simp [charEqCI, h]

theorem consumeLit_ci (p : JSString) :
    ∀ {t t' : JSString}, ciEqStr t t' →
      OptCI (consumeLit true p t) (consumeLit true p t') := by
  induction p with
  | nil =>
    intro t t' h
    exact OptCI.some h
  | cons pc ps ih =>
    intro t t' h
    cases h with
    | nil => exact OptCI.none
    | cons hc hrest =>
      rename_i c c' cs cs'
      simp only [consumeLit, charEqCI_transfer pc c c' hc]
      by_cases hcc : charEqCI true pc c' = true
      · simp only [hcc, if_true]
        exact ih hrest
      · simp only [hcc, if_false, Bool.false_eq_true]
        exact OptCI.none

theorem endBoundaryOk_ci : ∀ {t t' : JSString}, ciEqStr t t' →
    endBoundaryOk t = endBoundaryOk t' := by
  intro t t' h
  cases h with
  | nil => rfl
  | cons hc hrest =>
    rename_i c c' cs cs'
    simp only [endBoundaryOk]
    exact decide_eq_decide.mpr (ciEqChar_transfer_low c c' '>' hc (by decide))

theorem matchAtPost_ci (post : JSString) {s s' : JSString} (h : ciEqStr s s') :
    matchAtPost true post s = matchAtPost true post s' := by
  have hrel := consumeLit_ci ('@' :: post) h
  unfold matchAtPost
  cases hc1 : consumeLit true ('@' :: post) s with
  | none =>
    cases hc2 : consumeLit true ('@' :: post) s' with
    | none => rfl
    | some r' =>
      rw [hc1, hc2] at hrel
      cases hrel
  | some r =>
    cases hc2 : consumeLit true ('@' :: post) s' with
    | none =>
      rw [hc1, hc2] at hrel
      cases hrel
    | some r' =>
      rw [hc1, hc2] at hrel
      cases hrel with
      | some hr => exact endBoundaryOk_ci hr

theorem labelRun_ci (post : JSString) :
    ∀ {s s' : JSString}, ciEqStr s s' →
      labelRun true post s = labelRun true post s' := by
  intro s s' h
  induction h with
  | nil => rfl
  | cons hc hrest ih =>
    rename_i c c' cs cs'
    simp only [labelRun]
    rw [decide_eq_decide.mpr
        (not_congr (ciEqChar_transfer_low c c' '@' hc (by decide))),
      matchAtPost_ci post hrest, ih]

theorem tailWithAt_ci (post : JSString) {s s' : JSString} (h : ciEqStr s s') :
    tailWithAt true post s = tailWithAt true post s' := by
  unfold tailWithAt
  rw [matchAtPost_ci post h]
  congr 1
  cases h with
  | nil => rfl
  | cons hc hrest =>
    rename_i c c' cs cs'
    have h43 : c = '+' ↔ c' = '+' :=
      ciEqChar_transfer_low c c' '+' hc (by decide)
    by_cases hp : c = '+'
    · have hp' : c' = '+' := h43.mp hp
      subst hp
      subst hp'
      simp only []
      exact labelRun_ci post hrest
    · have hp' : ¬ c' = '+' := fun hx => hp (h43.mpr hx)
      split
      · next heq => exact absurd heq (by simp [hp])
      · next =>
        split
        · next heq => exact absurd heq (by simp [hp'])
        · next => rfl

theorem startBoundaryOk_ci {prev prev' : Option Char} (h : PrevCI prev prev') :
    startBoundaryOk prev = startBoundaryOk prev' := by
  cases h with
  | none => rfl
  | some hc =>
    rename_i c c'
    simp only [startBoundaryOk]
    exact decide_eq_decide.mpr (ciEqChar_transfer_low c c' '<' hc (by decide))

theorem coreWrapped_ci (pre post : JSString) (hasAt : Bool)
    {s s' : JSString} (h : ciEqStr s s') :
    coreWrapped true pre post hasAt s = coreWrapped true pre post hasAt s' := by
  have hrel := consumeLit_ci pre h
  unfold coreWrapped
  cases hc1 : consumeLit true pre s with
  | none =>
    cases hc2 : consumeLit true pre s' with
    | none => rfl
    | some r' =>
      rw [hc1, hc2] at hrel
      cases hrel
  | some r =>
    cases hc2 : consumeLit true pre s' with
    | none =>
      rw [hc1, hc2] at hrel
      cases hrel
    | some r' =>
      rw [hc1, hc2] at hrel
      cases hrel with
      | some hr =>
        cases hasAt
        · simp only [if_false, Bool.false_eq_true]
          exact endBoundaryOk_ci hr
        · simp only [if_true]
          exact tailWithAt_ci post hr

theorem scanStarts_ci (core core' : JSString → Bool)
    (hcore : ∀ {u u' : JSString}, ciEqStr u u' → core u = core' u') :
    ∀ {s s' : JSString}, ciEqStr s s' →
      ∀ {prev prev' : Option Char}, PrevCI prev prev' →
        scanStarts core prev s = scanStarts core' prev' s' := by
  intro s s' h
  induction h with
  | nil =>
    intro prev prev' hp
    simp only [scanStarts]
    rw [startBoundaryOk_ci hp, hcore List.Forall₂.nil]
  | cons hc hrest ih =>
    intro prev prev' hp
    rename_i c c' cs cs'
    simp only [scanStarts]
    rw [startBoundaryOk_ci hp, hcore (List.Forall₂.cons hc hrest),
      ih (PrevCI.some hc)]

theorem testWrapped_ci (lit : JSString) (addr : Bool)
    {t t' : JSString} (h : ciEqStr t t') :
    testWrapped true lit addr t = testWrapped true lit addr t' := by
  unfold testWrapped
  cases hsplit : (if addr then splitAtFirst '@' lit else none) with
  | none =>
    exact scanStarts_ci _ _ (fun hu => coreWrapped_ci lit [] false hu) h PrevCI.none
  | some pq =>
    exact scanStarts_ci _ _ (fun hu => coreWrapped_ci pq.1 pq.2 true hu) h PrevCI.none

/-- C7: every address-context comparison — the default address pattern and
the quoted exact pattern, both compiled with the `i` flag — is
case-insensitive: the test result is invariant under replacing the target
by any case-equivalent string.  The default (non-regex, non-quoted)
pattern for subject/body compiles to a case-sensitive literal-substring
matcher: the pattern `asdf` does not match text containing `aSdF`, while
the pattern `aSdF` does match it. -/
theorem C7_address_ci_subject_cs :
    (∀ (p t t' : JSString) (li : Nat), ciEqStr t t' →
        (Matcher.test (.address p) li t).1 = (Matcher.test (.address p) li t').1)
  ∧ (∀ (p t t' : JSString) (li : Nat), ciEqStr t t' →
        (Matcher.test (.exact p) li t).1 = (Matcher.test (.exact p) li t').1)
  ∧ parseRegExp (js "asdf") [] false = .ok (.contains (js "asdf"))
  ∧ test_regexp (js "asdf") (js "Text with aSdF in it") false = .ok false
  ∧ test_regexp (js "aSdF") (js "Text with aSdF in it") false = .ok true := by
  refine ⟨?_, ?_, by decide, by decide, by decide⟩
  · intro p t t' li h
    exact testWrapped_ci p true h
  · intro p t t' li h
    exact testWrapped_ci p false h

theorem C7_address_ci_subject_cs_witness :
    (Matcher.test (.address (js "abc+Def@gmail.com")) 0 (js "abc+def@gmail.com")).1
      = (Matcher.test (.address (js "abc+Def@gmail.com")) 0 (js "abc+Def@gmail.com")).1
    ∧ (Matcher.test (.address (js "abc+Def@gmail.com")) 0 (js "abc+Def@gmail.com")).1
      = true :=
  ⟨C7_address_ci_subject_cs.1 (js "abc+Def@gmail.com") (js "abc+def@gmail.com")
      (js "abc+Def@gmail.com") 0 (by decide),
    by decide⟩

theorem except_bind_isOk_false {α β : Type} (e : Except JSString α)
    (f : α → Except JSString β) (h : e.isOk = false) : (e >>= f).isOk = false := by
  cases e with
  | error e => rfl
  | ok a => simp [Except.isOk, Except.toBool] at h

theorem except_bind_isOk_false_all {α β : Type} (e : Except JSString α)
    (f : α → Except JSString β) (h : ∀ a, (f a).isOk = false) :
    (e >>= f).isOk = false := by
  cases e with
  | error e => rfl
  | ok a => exact h a

theorem subScan_unbalanced (child : JSString → Except JSString Condition)
    (rest_str : JSString) :
    ∀ (chars : JSString) (idx start level : Nat),
      parenUnbalanced level chars = true →
      (subScan child rest_str chars idx start level).isOk = false := by
  intro chars
  induction chars with
  | nil =>
    intro idx start level h
    unfold parenUnbalanced at h
    unfold subScan
    simp only [decide_eq_true_eq] at h
    simp [h, Except.isOk, Except.toBool]
  | cons c cs ih =>
    intro idx start level h
    unfold parenUnbalanced at h
    unfold subScan
    by_cases h1 : c = '('
    · simp only [h1, if_true] at h ⊢
      exact ih (idx + 1) start (level + 1) h
    · by_cases h2 : c = ')'
      · simp only [h1, h2, if_false, if_true] at h ⊢
        by_cases h3 : level = 0
        · simp [h3, Except.isOk, Except.toBool]
        · simp only [h3, if_false] at h ⊢
          by_cases h4 : level = 1
          · have h0 : parenUnbalanced 0 cs = true := by
              rw [h4] at h
              simpa using h
            simp only [h4, if_true]
            by_cases h5 : start < idx
            · simp only [h5, if_true]
              by_cases h6 :
                  (jsTrim (jsSubstring rest_str (start : Int) ((idx : Int) + 1))).length > 0
              · simp only [h6, if_true]
                refine except_bind_isOk_false_all _ _ (fun c1 => ?_)
                exact except_bind_isOk_false _ _ (ih (idx + 1) (idx + 1) 0 h0)
              · simp only [h6, if_false]
                exact ih (idx + 1) (idx + 1) 0 h0
            · simp only [h5, if_false]
              exact ih (idx + 1) (idx + 1) 0 h0
          · simp only [h4, if_false]
            exact ih (idx + 1) start (level - 1) h
      · simp only [h1, h2, if_false] at h ⊢
        exact ih (idx + 1) start level h

theorem parse_fails_unwrapped (s : JSString)
    (h : (jsStartsWith (jsTrim s) '(' && jsEndsWith (jsTrim s) ')') = false) :
    (Condition.parse s).isOk = false := by
  unfold Condition.parse parseCondition
  simp [h, Except.isOk, Except.toBool]

theorem parse_fails_unbalanced (s : JSString)
    (hl : lookupConditionType (typeStrOf (jsTrim s)) = some ConditionType.AND
      ∨ lookupConditionType (typeStrOf (jsTrim s)) = some ConditionType.OR
      ∨ lookupConditionType (typeStrOf (jsTrim s)) = some ConditionType.NOT)
    (hu : parenUnbalanced 0 (restStrOf (jsTrim s)) = true) :
    (Condition.parse s).isOk = false := by
  by_cases hw : (jsStartsWith (jsTrim s) '(' && jsEndsWith (jsTrim s) ')') = true
  · rcases hl with hl | hl | hl <;>
      · unfold Condition.parse parseCondition
        simp only [hw, Bool.not_true, Bool.false_eq_true, if_false, hl]
        exact except_bind_isOk_false _ _ (subScan_unbalanced _ _ _ 0 0 0 hu)
  · exact parse_fails_unwrapped s (by simpa using hw)

theorem parse_fails_unknown_keyword (s : JSString)
    (hw : (jsStartsWith (jsTrim s) '(' && jsEndsWith (jsTrim s) ')') = true)
    (hl : lookupConditionType (typeStrOf (jsTrim s)) = none) :
    (Condition.parse s).isOk = false := by
  unfold Condition.parse parseCondition
  simp [hw, hl, Except.isOk, Except.toBool]

theorem parse_fails_not_arity (s : JSString) (n : Nat)
    (hw : (jsStartsWith (jsTrim s) '(' && jsEndsWith (jsTrim s) ')') = true)
    (hl : lookupConditionType (typeStrOf (jsTrim s)) = some ConditionType.NOT)
    (hn : (parseSubConditions s.length (restStrOf (jsTrim s))).map List.length
        = .ok n)
    (h1 : n ≠ 1) :
    (Condition.parse s).isOk = false := by
  unfold Condition.parse parseCondition
  simp only [hw, Bool.not_true, Bool.false_eq_true, if_false, hl]
  unfold parseSubConditions at hn
  cases hp : subScan (parseCondition s.length) (restStrOf (jsTrim s))
      (restStrOf (jsTrim s)) 0 0 0 with
  | error e =>
    rw [hp] at hn
    exact absurd hn (by simp [Except.map])
  | ok subs =>
    rw [hp] at hn
    simp only [Except.map] at hn
    cases subs with
    | nil => rfl
    | cons a t =>
      cases t with
      | nil =>
        exfalso
        apply h1
        have : ([a] : List Condition).length = n := by
          injection hn
        simpa using this.symm
      | cons b t2 => rfl

theorem parse_fails_empty_pattern (s : JSString) (ct : ConditionType)
    (hw : (jsStartsWith (jsTrim s) '(' && jsEndsWith (jsTrim s) ')') = true)
    (hct : ct ∈ [ConditionType.FROM, ConditionType.TO, ConditionType.CC,
      ConditionType.BCC, ConditionType.LIST, ConditionType.SENDER,
      ConditionType.RECEIVER, ConditionType.SUBJECT, ConditionType.BODY])
    (hl : lookupConditionType (typeStrOf (jsTrim s)) = some ct)
    (hr : restStrOf (jsTrim s) = []) :
    (Condition.parse s).isOk = false := by
  unfold Condition.parse parseCondition
  fin_cases hct <;>
    · simp only [hw, Bool.not_true, Bool.false_eq_true, if_false, hl]
      rw [hr]
      exact except_bind_isOk_false _ _ rfl

theorem parse_fails_header_empty_pattern (s : JSString)
    (hw : (jsStartsWith (jsTrim s) '(' && jsEndsWith (jsTrim s) ')') = true)
    (hl : lookupConditionType (typeStrOf (jsTrim s)) = some ConditionType.HEADER)
    (hr : subtypeRest (restStrOf (jsTrim s)) = []) :
    (Condition.parse s).isOk = false := by
  unfold Condition.parse parseCondition
  simp only [hw, Bool.not_true, Bool.false_eq_true, if_false, hl]
  rw [hr]
  exact except_bind_isOk_false _ _ rfl

theorem parse_fails_thread_subtype (s : JSString)
    (hw : (jsStartsWith (jsTrim s) '(' && jsEndsWith (jsTrim s) ')') = true)
    (hl : lookupConditionType (typeStrOf (jsTrim s)) = some ConditionType.THREAD)
    (ht : lookupThreadSubType (subtypeOf (restStrOf (jsTrim s))) = none) :
    (Condition.parse s).isOk = false := by
  unfold Condition.parse parseCondition
  simp [hw, hl, ht, Except.isOk, Except.toBool]

/-- C5 counterexample, two independent refutations of the claim's
"exactly": (1) the trimmed string `(from a@b.c) (to x)` is not wrapped in
a single balanced parenthesis pair (its opening parenthesis is already
closed before ` (to x)`), yet parsing succeeds — the constructor checks
only that the trimmed string starts with `(` and ends with `)`;
(2) `(thread 0)` and `(thread 3 x)` have subtype strings that are not
subtype keywords, yet parsing succeeds — the numeric enum's reverse
mapping makes `ThreadSubType["0"]` the defined name string
`"FIRST_MESSAGE_SUBJECT"`, so the `=== undefined` check does not throw. -/
theorem C5_counterexample_unwrapped_parse_ok :
    (singleBalancedWrapped (jsTrim (js "(from a@b.c) (to x)")) = false
      ∧ (Condition.parse (js "(from a@b.c) (to x)")).isOk = true)
  ∧ ((Condition.parse (js "(thread 0)")).isOk = true
      ∧ (Condition.parse (js "(thread 3 x)")).isOk = true) := by
  exact ⟨⟨by decide, by decide⟩, ⟨by decide, by decide⟩⟩

/-- C5 (amended): condition parsing fails with a SyntaxError for: every
string whose trimmed form does not both start with `(` and end with `)`
(only these two characters are checked, not that the pair is balanced);
unbalanced parenthesis nesting among the sub-conditions of an
`AND`/`OR`/`NOT`; an unrecognized operator/matcher keyword; a `NOT` whose
child count is not exactly 1; a field or header matcher whose extracted
pattern string is empty; and a `THREAD` condition whose subtype string is
undefined on the enum object — i.e. neither one of the nine subtype
keywords nor a reverse-mapping digit key `0`..`8` (a digit subtype such as
`(thread 0)` parses successfully, see the counterexample). -/
theorem C5_parse_failure_conditions :
    (∀ s : JSString,
        (jsStartsWith (jsTrim s) '(' && jsEndsWith (jsTrim s) ')') = false →
        (Condition.parse s).isOk = false)
  ∧ (∀ s : JSString,
        (lookupConditionType (typeStrOf (jsTrim s)) = some ConditionType.AND
          ∨ lookupConditionType (typeStrOf (jsTrim s)) = some ConditionType.OR
          ∨ lookupConditionType (typeStrOf (jsTrim s)) = some ConditionType.NOT) →
        parenUnbalanced 0 (restStrOf (jsTrim s)) = true →
        (Condition.parse s).isOk = false)
  ∧ (∀ s : JSString,
        (jsStartsWith (jsTrim s) '(' && jsEndsWith (jsTrim s) ')') = true →
        lookupConditionType (typeStrOf (jsTrim s)) = none →
        (Condition.parse s).isOk = false)
  ∧ (∀ (s : JSString) (n : Nat),
        (jsStartsWith (jsTrim s) '(' && jsEndsWith (jsTrim s) ')') = true →
        lookupConditionType (typeStrOf (jsTrim s)) = some ConditionType.NOT →
        (parseSubConditions s.length (restStrOf (jsTrim s))).map List.length
          = .ok n →
        n ≠ 1 →
        (Condition.parse s).isOk = false)
  ∧ (∀ (s : JSString) (ct : ConditionType),
        (jsStartsWith (jsTrim s) '(' && jsEndsWith (jsTrim s) ')') = true →
        ct ∈ [ConditionType.FROM, ConditionType.TO, ConditionType.CC,
          ConditionType.BCC, ConditionType.LIST, ConditionType.SENDER,
          ConditionType.RECEIVER, ConditionType.SUBJECT, ConditionType.BODY] →
        lookupConditionType (typeStrOf (jsTrim s)) = some ct →
        restStrOf (jsTrim s) = [] →
        (Condition.parse s).isOk = false)
  ∧ (∀ s : JSString,
        (jsStartsWith (jsTrim s) '(' && jsEndsWith (jsTrim s) ')') = true →
        lookupConditionType (typeStrOf (jsTrim s)) = some ConditionType.HEADER →
        subtypeRest (restStrOf (jsTrim s)) = [] →
        (Condition.parse s).isOk = false)
  ∧ (∀ s : JSString,
        (jsStartsWith (jsTrim s) '(' && jsEndsWith (jsTrim s) ')') = true →
        lookupConditionType (typeStrOf (jsTrim s)) = some ConditionType.THREAD →
        lookupThreadSubType (subtypeOf (restStrOf (jsTrim s))) = none →
        (Condition.parse s).isOk = false) := by
  refine ⟨parse_fails_unwrapped, parse_fails_unbalanced, parse_fails_unknown_keyword,
    ?_, ?_, parse_fails_header_empty_pattern, parse_fails_thread_subtype⟩
  · intro s n hw hl hn h1
    exact parse_fails_not_arity s n hw hl hn h1
  · intro s ct hw hct hl hr
    exact parse_fails_empty_pattern s ct hw hct hl hr

theorem C5_parse_failure_conditions_witness :
    (Condition.parse (js "from a@b")).isOk = false
  ∧ (Condition.parse (js "(and (from a@b)")).isOk = false
  ∧ (Condition.parse (js "(foo x)")).isOk = false
  ∧ (Condition.parse (js "(not (from a@b.c) (to x@b.c))")).isOk = false
  ∧ (Condition.parse (js "(from )")).isOk = false
  ∧ (Condition.parse (js "(header )")).isOk = false
  ∧ (Condition.parse (js "(thread is_made_up)")).isOk = false :=
  ⟨C5_parse_failure_conditions.1 (js "from a@b") (by decide),
    C5_parse_failure_conditions.2.1 (js "(and (from a@b)") (Or.inl (by decide))
      (by decide),
    C5_parse_failure_conditions.2.2.1 (js "(foo x)") (by decide) (by decide),
    C5_parse_failure_conditions.2.2.2.1 (js "(not (from a@b.c) (to x@b.c))") 2
      (by decide) (by decide) (by decide) (by decide),
    C5_parse_failure_conditions.2.2.2.2.1 (js "(from )") ConditionType.FROM
      (by decide) (by decide) (by decide) (by decide),
    C5_parse_failure_conditions.2.2.2.2.2.1 (js "(header )") (by decide)
      (by decide) (by decide),
    C5_parse_failure_conditions.2.2.2.2.2.2 (js "(thread is_made_up)") (by decide)
      (by decide) (by decide)⟩
